import Mathlib

/-!
Verification of the MCP bridge in mcp-wrapper/mcp_server.js.

The JavaScript source is embedded shallowly:

* The frame codec of onStdinData works on the Node string buffer, so the
  model works on lists of characters; the declared Content-Length is the
  UTF-8 byte count computed by Buffer.byteLength on the encoder side,
  while the decoder compares and slices string characters, exactly as the
  source does.
* The handlers become pure functions over an explicit server state
  (initialized flag and session identifier); the backend HTTP service is
  an explicit environment value describing how it would answer.
* The background launch performed by the handshake handler is modelled as
  a separate completion event, matching the detached promise of the source.
-/

namespace GoT

/-- The literal text "Content-Length: " used by the header regular
expression in onStdinData and by the stdout write of mcp_server.js. -/
def headerLit : List Char :=
  ['C', 'o', 'n', 't', 'e', 'n', 't', '-', 'L', 'e', 'n', 'g', 't', 'h', ':', ' ']

/-- The header terminator, carriage return and line feed twice. -/
def crlf2 : List Char := ['\r', '\n', '\r', '\n']

/-- UTF-8 byte length of a character sequence, as Buffer.byteLength
computes it on the encoder side. -/
def utf8Len (s : List Char) : Nat := (s.map Char.utf8Size).sum

/-- Decimal digit character for a value below ten. -/
def digitChar (n : Nat) : Char := Char.ofNat (48 + n)

/-- Decimal printing of a natural number; the fuel argument keeps the
recursion structural and is always supplied large enough. -/
def natDigitsCore : Nat → Nat → List Char
  | 0, _ => []
  | fuel + 1, n =>
    if n < 10 then [digitChar n]
    else natDigitsCore fuel (n / 10) ++ [digitChar (n % 10)]

/-- Decimal printing of a natural number, as a JavaScript template
literal renders a number. -/
def natDigits (n : Nat) : List Char := natDigitsCore (n + 1) n

/-- Numeric value of a run of decimal digits, as parseInt with radix ten
computes it. -/
def digitsVal (ds : List Char) : Nat :=
  ds.foldl (fun a c => 10 * a + (c.toNat - 48)) 0

/-- Strip an expected literal from the front of the input, character by
character. -/
def stripLit : List Char → List Char → Option (List Char)
  | [], s => some s
  | _ :: _, [] => none
  | p :: ps, c :: cs => if c = p then stripLit ps cs else none

/-- One attempt of the header pattern Content-Length: (digits)CRLFCRLF at
the current position: the literal, then a maximal nonempty digit run,
then the terminator.  Greedy matching of the digit run agrees with the
backtracking regular expression because a shorter run would have to be
followed by a digit, never by a carriage return. -/
def tryHeaderAt (s : List Char) : Option (Nat × List Char) :=
  match stripLit headerLit s with
  | none => none
  | some r1 =>
    if (r1.takeWhile Char.isDigit).isEmpty then none
    else
      match stripLit crlf2 (r1.dropWhile Char.isDigit) with
      | none => none
      | some r2 => some (digitsVal (r1.takeWhile Char.isDigit), r2)

/-- Leftmost match of the header pattern, as String.prototype.match finds
it: try each start position from the left.  Returns the declared length
and the buffer remainder after the match, mirroring
buffer.substring(headerMatch.index + headerMatch[0].length). -/
def findHeader : List Char → Option (Nat × List Char)
  | [] => none
  | c :: t =>
    match tryHeaderAt (c :: t) with
    | some r => some r
    | none => findHeader t

theorem stripLit_eq_some (p : List Char) :
    ∀ s r, stripLit p s = some r → s = p ++ r := by
  induction p with
  | nil =>
    intro s r h
    simp [stripLit] at h
    simp [h]
  | cons a ps ih =>
    intro s r h
    cases s with
    | nil => simp [stripLit] at h
    | cons c cs =>
      by_cases hc : c = a
      · subst hc
        simp [stripLit] at h
        simpa using ih cs r h
      · simp [stripLit, hc] at h

theorem stripLit_self (p r : List Char) : stripLit p (p ++ r) = some r := by
  induction p with
  | nil => simp [stripLit]
  | cons a t ih => simp [stripLit, ih]

theorem tryHeaderAt_eq_some {s : List Char} {n : Nat} {rest : List Char}
    (h : tryHeaderAt s = some (n, rest)) :
    ∃ ds, ds ≠ [] ∧ s = headerLit ++ (ds ++ (crlf2 ++ rest)) := by
  unfold tryHeaderAt at h
  split at h
  · cases h
  next r1 h1 =>
    split at h
    · cases h
    next hds =>
      split at h
      · cases h
      next r2 h2 =>
        simp only [Option.some.injEq, Prod.mk.injEq] at h
        obtain ⟨hn, hrest⟩ := h
        refine ⟨r1.takeWhile Char.isDigit, ?_, ?_⟩
        · intro hemp
          exact hds (by simp [hemp])
        · have hs := stripLit_eq_some headerLit s r1 h1
          have hdrop := stripLit_eq_some crlf2 _ _ h2
          have hr1 : r1 = r1.takeWhile Char.isDigit ++ r1.dropWhile Char.isDigit :=
            (List.takeWhile_append_dropWhile Char.isDigit r1).symm
          rw [hs, ← hrest, ← hdrop, ← hr1]

theorem findHeader_length {s : List Char} {n : Nat} {rest : List Char}
    (h : findHeader s = some (n, rest)) : rest.length + 21 ≤ s.length := by
  induction s with
  | nil => simp [findHeader] at h
  | cons c t ih =>
    rw [findHeader] at h
    cases ht : tryHeaderAt (c :: t) with
    | some r =>
      rw [ht] at h
      cases h
      obtain ⟨ds, hne, hdec⟩ := tryHeaderAt_eq_some ht
      have hlen := congrArg List.length hdec
      have hds : 1 ≤ ds.length := by
        cases ds with
        | nil => cases hne rfl
        | cons _ _ => simp
      simp [headerLit, crlf2, List.length_append] at hlen
      simp
      omega
    | none =>
      rw [ht] at h
      have := ih h
      simp
      omega

/-- The decoder state of onStdinData: the accumulated string buffer, the
declared length of the body being awaited (the module variable
contentLength, none standing for its minus-one resting value), and the
payloads extracted so far. -/
structure CodecState where
  buffer : List Char
  contentLength : Option Nat
  emitted : List (List Char)
deriving DecidableEq, Repr

/-- The message extraction loop of onStdinData: while the buffer is
nonempty, look for a header when no length is pending, then wait until
the buffer holds at least the declared number of characters and slice
exactly that many as the payload. -/
def runLoop (buf : List Char) (cl : Option Nat) (em : List (List Char)) : CodecState :=
  if buf = [] then ⟨buf, cl, em⟩
  else
    match cl with
    | some n =>
      if buf.length < n then ⟨buf, some n, em⟩
      else runLoop (buf.drop n) none (em ++ [buf.take n])
    | none =>
      match hf : findHeader buf with
      | none => ⟨buf, none, em⟩
      | some (n, rest) =>
        if rest.length < n then ⟨rest, some n, em⟩
        else runLoop (rest.drop n) none (em ++ [rest.take n])
termination_by 2 * buf.length + (match cl with | some _ => 1 | none => 0)
decreasing_by
  · simp [List.length_drop]
    omega
  · have h21 := findHeader_length hf
    simp [List.length_drop]
    omega

/-- One delivery of stdin data: append the chunk to the buffer and run
the extraction loop. -/
def feed (st : CodecState) (chunk : List Char) : CodecState :=
  runLoop (st.buffer ++ chunk) st.contentLength st.emitted

/-- Decode a whole sequence of stdin chunks from the resting state. -/
def decode (chunks : List (List Char)) : CodecState :=
  chunks.foldl feed ⟨[], none, []⟩

/-- The encoder of mcp_server.js: the header line declaring the UTF-8
byte length of the payload, then the payload, with no extra separator. -/
def encodeMsg (payload : List Char) : List Char :=
  headerLit ++ natDigits (utf8Len payload) ++ crlf2 ++ payload

theorem digitChar_isDigit {n : Nat} (h : n < 10) : (digitChar n).isDigit = true := by
  interval_cases n <;> decide

theorem digitChar_toNat {n : Nat} (h : n < 10) : (digitChar n).toNat = 48 + n := by
  interval_cases n <;> decide

theorem natDigitsCore_all_digit :
    ∀ fuel n, n < fuel → ∀ c ∈ natDigitsCore fuel n, c.isDigit = true := by
  intro fuel
  induction fuel with
  | zero => intro n hn; omega
  | succ f ih =>
    intro n hn c hc
    by_cases h10 : n < 10
    · simp [natDigitsCore, h10] at hc
      rw [hc]
      exact digitChar_isDigit h10
    · simp [natDigitsCore, h10] at hc
      rcases hc with hc | hc
      · exact ih (n / 10) (by omega) c hc
      · rw [hc]
        exact digitChar_isDigit (Nat.mod_lt _ (by omega))

theorem natDigits_all_digit (n : Nat) : ∀ c ∈ natDigits n, c.isDigit = true :=
  natDigitsCore_all_digit (n + 1) n (Nat.lt_succ_self n)

theorem digitsVal_append_singleton (l : List Char) (c : Char) :
    digitsVal (l ++ [c]) = 10 * digitsVal l + (c.toNat - 48) := by
  simp [digitsVal, List.foldl_append]

theorem digitsVal_natDigitsCore :
    ∀ fuel n, n < fuel → digitsVal (natDigitsCore fuel n) = n := by
  intro fuel
  induction fuel with
  | zero => intro n hn; omega
  | succ f ih =>
    intro n hn
    by_cases h10 : n < 10
    · simp [natDigitsCore, h10, digitsVal, digitChar_toNat h10]
    · have hdiv : n / 10 < f := by
        have := Nat.div_lt_self (by omega : 0 < n) (by omega : 1 < 10)
        omega
      rw [natDigitsCore, if_neg h10, digitsVal_append_singleton, ih (n / 10) hdiv,
        digitChar_toNat (Nat.mod_lt _ (by omega))]
      omega

theorem digitsVal_natDigits (n : Nat) : digitsVal (natDigits n) = n :=
  digitsVal_natDigitsCore (n + 1) n (Nat.lt_succ_self n)

theorem natDigits_ne_nil (n : Nat) : natDigits n ≠ [] := by
  unfold natDigits natDigitsCore
  split <;> simp

theorem takeWhile_all_false (p : Char → Bool) :
    ∀ (l : List Char) (x : Char) (r : List Char), (∀ c ∈ l, p c = true) → p x = false →
      (l ++ x :: r).takeWhile p = l ∧ (l ++ x :: r).dropWhile p = x :: r := by
  intro l
  induction l with
  | nil =>
    intro x r _ hx
    simp [List.takeWhile_cons, List.dropWhile_cons, hx]
  | cons a t ih =>
    intro x r hall hx
    have ha : p a = true := hall a (by simp)
    have ht := ih x r (fun c hc => hall c (by simp [hc])) hx
    simp [List.takeWhile_cons, List.dropWhile_cons, ha, ht.1, ht.2]

theorem tryHeaderAt_exact (n : Nat) (t : List Char) :
    tryHeaderAt (headerLit ++ (natDigits n ++ (crlf2 ++ t))) = some (n, t) := by
  have hcr : Char.isDigit '\r' = false := by decide
  have htw := takeWhile_all_false Char.isDigit (natDigits n) '\r' ('\n' :: '\r' :: '\n' :: t)
    (natDigits_all_digit n) hcr
  have hsplit : natDigits n ++ (crlf2 ++ t) = natDigits n ++ '\r' :: '\n' :: '\r' :: '\n' :: t := by
    simp [crlf2]
  have hemp : ¬ ((natDigits n).isEmpty = true) := by
    cases hnd : natDigits n with
    | nil => exact absurd hnd (natDigits_ne_nil n)
    | cons _ _ => simp
  have hback : ('\r' :: '\n' :: '\r' :: '\n' :: t) = crlf2 ++ t := by simp [crlf2]
  unfold tryHeaderAt
  rw [stripLit_self, hsplit]
  simp only [htw.1, htw.2]
  rw [if_neg hemp, hback, stripLit_self]
  simp [digitsVal_natDigits]

theorem findHeader_of_try {s : List Char} {r : Nat × List Char}
    (h : tryHeaderAt s = some r) : findHeader s = some r := by
  cases s with
  | nil =>
    rw [show tryHeaderAt [] = none from by unfold tryHeaderAt headerLit stripLit; rfl] at h
    cases h
  | cons c t =>
    rw [findHeader, h]

theorem utf8Len_ascii {p : List Char} (h : ∀ c ∈ p, c.utf8Size = 1) :
    utf8Len p = p.length := by
  induction p with
  | nil => simp [utf8Len]
  | cons a t ih =>
    have ha := h a (by simp)
    have ht := ih (fun c hc => h c (by simp [hc]))
    simp [utf8Len, ha] at ht ⊢
    omega

/-- A buffer holding a sequence of well-encoded messages with ASCII
payloads is fully decoded by one pass of the extraction loop: every
payload comes out, in order, and the buffer drains. -/
theorem runLoop_encodeAll :
    ∀ (ps : List (List Char)) (em : List (List Char)),
      (∀ p ∈ ps, p ≠ [] ∧ (∀ c ∈ p, c.utf8Size = 1)) →
      runLoop ((ps.map encodeMsg).flatten) none em = ⟨[], none, em ++ ps⟩ := by
  intro ps
  induction ps with
  | nil =>
    intro em _
    rw [runLoop]
    simp
  | cons p rest ih =>
    intro em hps
    obtain ⟨hne, hascii⟩ := hps p (by simp)
    have hlen : utf8Len p = p.length := utf8Len_ascii hascii
    have hbuf : (((p :: rest).map encodeMsg).flatten)
        = headerLit ++ (natDigits (utf8Len p) ++ (crlf2 ++ (p ++ (rest.map encodeMsg).flatten))) := by
      simp [encodeMsg, List.append_assoc]
    have hfind := findHeader_of_try (tryHeaderAt_exact (utf8Len p) (p ++ (rest.map encodeMsg).flatten))
    have hnotlt : ¬ ((p ++ (rest.map encodeMsg).flatten).length < utf8Len p) := by
      simp [List.length_append, hlen]
    rw [hbuf, runLoop]
    rw [if_neg (by simp [headerLit])]
    split
    next hnone => rw [hfind] at hnone; cases hnone
    next n1 rest1 hsome =>
      rw [hfind] at hsome
      injection hsome with hpair
      obtain ⟨hn1, hrest1⟩ := Prod.mk.injEq .. ▸ hpair
      subst hn1
      subst hrest1
      rw [if_neg hnotlt, hlen, List.take_left, List.drop_left]
      rw [ih (em ++ [p]) (fun q hq => hps q (by simp [hq]))]
      simp

theorem decode_single (c : List Char) : decode [c] = runLoop c none [] := by
  simp [decode, feed]

/-- The concrete payload exhibiting the framing mismatch: the three
character JSON text for a string holding one accented letter.  Its UTF-8
byte length is four while its character count is three. -/
def c1Payload : List Char := ['"', 'é', '"']

/-- Claim C1, settled as a code bug.  The encoder declares the UTF-8
byte length (four for this payload), but the decoder of onStdinData
compares and slices JavaScript string characters.  Feeding the complete
encoding of the payload therefore emits nothing: the decoder is left
waiting for a fourth character that will never arrive, with the whole
three character payload sitting in its buffer, even though every
declared byte has been delivered.  The claim says the decoder slices
exactly the declared number of bytes and round-trips every message; the
code does not. -/
theorem c1_code_bug :
    utf8Len c1Payload = 4 ∧ c1Payload.length = 3 ∧
    decode [encodeMsg c1Payload] = ⟨c1Payload, some 4, []⟩ ∧
    (decode [encodeMsg c1Payload]).emitted = [] := by
  have h4 : utf8Len c1Payload = 4 := by decide
  have hdec : decode [encodeMsg c1Payload] = ⟨c1Payload, some 4, []⟩ := by
    have henc : encodeMsg c1Payload
        = headerLit ++ (natDigits (utf8Len c1Payload) ++ (crlf2 ++ c1Payload)) := by
      simp [encodeMsg, List.append_assoc]
    have hfind := findHeader_of_try (tryHeaderAt_exact (utf8Len c1Payload) c1Payload)
    rw [decode_single, henc, runLoop, if_neg (by simp [headerLit])]
    split
    next hnone => rw [hfind] at hnone; cases hnone
    next n1 rest1 hsome =>
      rw [hfind] at hsome
      injection hsome with hpair
      obtain ⟨hn1, hrest1⟩ := Prod.mk.injEq .. ▸ hpair
      subst hn1
      subst hrest1
      rw [if_pos (by decide), h4]
  exact ⟨h4, by decide, hdec, by rw [hdec]⟩

/-! Server state, message envelopes and the backend collaborator. -/

/-- JavaScript truthiness of an optional string: absent, null and the
empty string are falsy. -/
def jsTruthyStr : Option String → Bool
  | none => false
  | some s => !s.isEmpty

/-- JavaScript logical-or of an optional string against a default, as in
stage.name or a fallback literal. -/
def jsStrOr (v : Option String) (d : String) : String :=
  match v with
  | none => d
  | some s => if s.isEmpty then d else s

/-- JavaScript logical-or of an optional stage number against a default
text, rendered as a template literal renders it; the number zero is
falsy and also falls back. -/
def jsNumOr (v : Option Nat) (d : String) : String :=
  match v with
  | none => d
  | some n => if n = 0 then d else toString n

/-- JavaScript expression message.id or zero, used by the catch-all of
processMessage. -/
def jsIdOr0 : Option Int → Int
  | none => 0
  | some n => n

/-- Array.prototype.join with a line feed separator. -/
def joinNl : List String → String
  | [] => ""
  | [x] => x
  | x :: y :: xs => x ++ "\n" ++ joinNl (y :: xs)

/-- The context object inside query params.  The code reads only the
query field; a timeout field a caller might supply is carried to show it
is never consulted. -/
structure QCtx where
  query : Option String
  timeout : Option Nat
deriving DecidableEq, Repr

/-- The params object of an inbound request. -/
structure QParams where
  context : Option QCtx
deriving DecidableEq, Repr

/-- An inbound JSON-RPC envelope, after JSON parsing: id, method and
params, each possibly absent. -/
structure MsgIn where
  id : Option Int
  method : String
  params : Option QParams
deriving DecidableEq, Repr

/-- One entry of the backend reasoning trace.  The metrics mapping is
present in the backend payload; extractReasoningTrace never reads it. -/
structure TraceStage where
  name : Option String
  stage : Option Nat
  summary : Option String
  metrics : List (String × Int)
deriving DecidableEq, Repr

/-- The asr_got_result object of a backend response. -/
structure AsrGotResult where
  reasoning_trace : Option (List TraceStage)
  confidence : Option (List Int)
deriving DecidableEq, Repr

/-- The message object inside a backend choice. -/
structure ChoiceMsg where
  content : Option String
deriving DecidableEq, Repr

/-- One entry of the backend choices array. -/
structure Choice where
  message : Option ChoiceMsg
deriving DecidableEq, Repr

/-- A parsed backend response body. -/
structure BackendResponse where
  choices : Option (List Choice)
  asr_got_result : Option AsrGotResult
  session_id : Option String
deriving DecidableEq, Repr

/-- The request payload handleAsrGotQuery builds: the query text plus
the fixed processing flag, and nothing else. -/
structure BackendRequest where
  query : String
  process_response : Bool
deriving DecidableEq, Repr

/-- How the backend HTTP service would behave for one call: either the
network fails outright, or a response with the given status arrives
after the given number of milliseconds, its body parsing to the given
value (none when the body is not valid JSON). -/
inductive NetBehavior
  | failWith (msg : String)
  | respondAfter (delayMs : Nat) (status : Nat) (body : Option BackendResponse)
deriving DecidableEq, Repr

/-- The distinct rejection reasons of makeRequest, one constructor per
reject site in the source. -/
inductive ReqError
  | timedOut
  | network (msg : String)
  | badStatus (code : Nat)
  | parseFailed
deriving DecidableEq, Repr

/-- The error message carried by each rejection of makeRequest.  The
inner text of a JSON parse failure is platform supplied and is elided. -/
def reqErrorMessage : ReqError → String
  | .timedOut => "Request timed out"
  | .network m => m
  | .badStatus c => "Request failed with status code " ++ toString c
  | .parseFailed => "Failed to parse response"

/-- The timeout option hard-coded in the options literal of makeRequest. -/
def requestOptionsTimeout : Nat := 60000

/-- makeRequest of mcp_server.js: the function takes only the data to
post; its deadline is the fixed options timeout.  A response that takes
longer than the deadline fires the timeout handler, which destroys the
request and rejects with the timed-out error; a network failure rejects
with the network error; a non-2xx status rejects with the status error;
a 2xx body that is not valid JSON rejects with the parse error. -/
def makeRequest (_data : BackendRequest) (net : NetBehavior) : Except ReqError BackendResponse :=
  match net with
  | .failWith m => .error (.network m)
  | .respondAfter d status body =>
    if requestOptionsTimeout < d then .error .timedOut
    else if 200 ≤ status ∧ status < 300 then
      match body with
      | some r => .ok r
      | none => .error .parseFailed
    else .error (.badStatus status)

/-- extractReasoningTrace of mcp_server.js: absent trace yields the
fixed fallback text; otherwise each stage is formatted with its number
(question mark when absent or zero), its name (fallback when absent or
empty) and its summary (fallback when absent or empty), and the blocks
are joined with a line feed.  The metrics of a stage are never read. -/
def extractReasoningTrace (r : AsrGotResult) : String :=
  match r.reasoning_trace with
  | none => "No reasoning trace available."
  | some trace =>
    joinNl (trace.map (fun stage =>
      "Stage " ++ jsNumOr stage.stage "?" ++ ": " ++ jsStrOr stage.name "Unknown Stage"
        ++ "\n" ++ jsStrOr stage.summary "No summary available." ++ "\n"))

/-- The process-wide mutable state of the bridge: the initialized flag
and the shared session identifier. -/
structure ServerState where
  initialized : Bool
  sessionId : Option String
deriving DecidableEq, Repr

/-- The result object of a successful query response. -/
structure QueryResult where
  response : String
  reasoningTrace : String
  confidence : List Int
  sessionId : Option String
deriving DecidableEq, Repr

/-- The payload of an outbound response: a query result, the null result
of shutdown, the fixed capability descriptor of the handshake, or an
error object with code and message. -/
inductive RpcPayload
  | success (r : QueryResult)
  | nullResult
  | initCaps
  | err (code : Int) (message : String)
deriving DecidableEq, Repr

/-- An outbound JSON-RPC envelope. -/
structure MsgOut where
  id : Option Int
  payload : RpcPayload
deriving DecidableEq, Repr

/-- The platform text of the TypeError thrown when params is absent and
params.context is read. -/
def ctxTypeErrorMsg : String := "Cannot read properties of undefined (reading 'context')"

/-- handleAsrGotQuery of mcp_server.js, as a function of the current
state, the request params and id, and the backend behavior.  It returns
the new state, the response and the number of HTTP calls issued to the
backend query endpoint, or the message of the exception it throws.
Reading params.context throws when params is absent; a falsy query
yields the invalid-params error before any network call; otherwise the
call is forwarded and either translated or converted to the
communication error, and only a successful response carrying a truthy
session_id overwrites the shared session identifier. -/
def handleAsrGotQuery (st : ServerState) (params : Option QParams) (id : Option Int)
    (net : NetBehavior) : Except String (ServerState × MsgOut × Nat) :=
  if st.initialized = false then
    .ok (st, ⟨id, .err (-32002) "Server not initialized"⟩, 0)
  else
    match params with
    | none => .error ctxTypeErrorMsg
    | some ps =>
      match (ps.context.getD ⟨none, none⟩).query with
      | none => .ok (st, ⟨id, .err (-32602) "Missing query in context"⟩, 0)
      | some q =>
        if q.isEmpty then .ok (st, ⟨id, .err (-32602) "Missing query in context"⟩, 0)
        else
          match makeRequest ⟨q, true⟩ net with
          | .error e =>
            .ok (st, ⟨id, .err (-32603)
              ("Error communicating with ASR-GoT server: " ++ reqErrorMessage e)⟩, 1)
          | .ok resp =>
            let claudeResponse :=
              match resp.choices with
              | some (c :: _) =>
                match c.message with
                | some m => m.content.getD ""
                | none => ""
              | _ => ""
            let asrGotResult := resp.asr_got_result.getD ⟨none, none⟩
            let newSession :=
              if jsTruthyStr resp.session_id then resp.session_id else st.sessionId
            .ok ({ st with sessionId := newSession },
              ⟨id, .success ⟨claudeResponse, extractReasoningTrace asrGotResult,
                asrGotResult.confidence.getD [0, 0, 0, 0], newSession⟩⟩, 1)

/-- processMessage of mcp_server.js: route by method; the handshake
answers synchronously with the fixed capability descriptor (its
background launch is a separate completion event); shutdown clears the
initialized flag and returns the null result; the query method
delegates; a cancellation notification produces no response; an unknown
method produces the method-not-found error; and any exception thrown by
a handler is converted by the catch-all into the internal error carrying
message.id or zero. -/
def processMessage (st : ServerState) (m : MsgIn) (net : NetBehavior) :
    ServerState × Option MsgOut × Nat :=
  if m.method = "initialize" then (st, some ⟨m.id, .initCaps⟩, 0)
  else if m.method = "shutdown" then ({ st with initialized := false }, some ⟨m.id, .nullResult⟩, 0)
  else if m.method = "asr_got.query" then
    match handleAsrGotQuery st m.params m.id net with
    | .ok (st1, out, k) => (st1, some out, k)
    | .error emsg => (st, some ⟨some (jsIdOr0 m.id), .err (-32603) ("Internal error: " ++ emsg)⟩, 0)
  else if m.method = "notifications/cancelled" then (st, none, 0)
  else (st, some ⟨m.id, .err (-32601) ("Method not found: " ++ m.method)⟩, 0)

/-- One scheduler event: an inbound message under a given backend
behavior, or the completion of the background container launch fired by
the handshake handler, carrying its success flag. -/
inductive Event
  | inbound (m : MsgIn) (net : NetBehavior)
  | launchDone (success : Bool)
deriving DecidableEq, Repr

/-- Whether an event is a successful launch completion. -/
def Event.isLaunchSuccess : Event → Bool
  | .launchDone true => true
  | _ => false

/-- One step of the event loop. -/
def stepEv (st : ServerState) (e : Event) : ServerState × Option MsgOut × Nat :=
  match e with
  | .launchDone ok => ({ st with initialized := ok }, none, 0)
  | .inbound m net => processMessage st m net

/-- Run a sequence of events, collecting the responses and the total
number of backend query calls. -/
def runEvents (st : ServerState) : List Event → ServerState × List MsgOut × Nat
  | [] => (st, [], 0)
  | e :: es =>
    let r1 := stepEv st e
    let r2 := runEvents r1.1 es
    (r2.1, r1.2.1.toList ++ r2.2.1, r1.2.2 + r2.2.2)

/-! The backend launcher of startDockerContainers. -/

/-- The observable outcome of one startDockerContainers call: its return
value, how many times the orchestration start command was spawned, the
sleep durations awaited in order, and how many polling health probes
were made after the launch (the initial probe is not counted here). -/
structure LaunchResult where
  ok : Bool
  launches : Nat
  delays : List Nat
  pollProbes : Nat
deriving DecidableEq, Repr

/-- The polling loop of startDockerContainers: each iteration awaits a
fixed three-second delay and then probes; the loop returns on the first
probe reporting the server up.  The probe argument gives the outcome of
the k-th health check of this call, the initial check being number
zero.  Returns the loop result, the number of probes made and the
delays awaited. -/
def dockerWaitLoop (probe : Nat → Bool) : Nat → Nat → Bool × Nat × List Nat
  | _, 0 => (false, 0, [])
  | i, fuel + 1 =>
    if probe i then (true, 1, [3000])
    else
      let r := dockerWaitLoop probe (i + 1) fuel
      (r.1, r.2.1 + 1, 3000 :: r.2.2)

/-- startDockerContainers of mcp_server.js: check the health endpoint
first and return immediately when it answers, spawning nothing;
otherwise spawn the orchestration start command once and poll up to ten
times, a three-second delay before each probe, returning on the first
success and reporting failure when the budget is exhausted. -/
def startDockerContainers (probe : Nat → Bool) : LaunchResult :=
  if probe 0 then ⟨true, 0, [], 0⟩
  else
    let w := dockerWaitLoop probe 1 10
    ⟨w.1, 1, w.2.2, w.2.1⟩

theorem dockerWaitLoop_count_le (probe : Nat → Bool) :
    ∀ fuel i, (dockerWaitLoop probe i fuel).2.1 ≤ fuel := by
  intro fuel
  induction fuel with
  | zero => intro i; simp [dockerWaitLoop]
  | succ f ih =>
    intro i
    by_cases hp : probe i
    · simp [dockerWaitLoop, hp]
    · have := ih (i + 1)
      simp [dockerWaitLoop, hp]
      omega

theorem dockerWaitLoop_delays (probe : Nat → Bool) :
    ∀ fuel i, (dockerWaitLoop probe i fuel).2.2
      = List.replicate (dockerWaitLoop probe i fuel).2.1 3000 := by
  intro fuel
  induction fuel with
  | zero => intro i; simp [dockerWaitLoop]
  | succ f ih =>
    intro i
    by_cases hp : probe i
    · simp [dockerWaitLoop, hp, List.replicate]
    · have := ih (i + 1)
      simp [dockerWaitLoop, hp, List.replicate_succ]
      exact this

theorem dockerWaitLoop_ok_iff (probe : Nat → Bool) :
    ∀ fuel i, (dockerWaitLoop probe i fuel).1 = true
      ↔ ∃ k, i ≤ k ∧ k < i + fuel ∧ probe k = true := by
  intro fuel
  induction fuel with
  | zero =>
    intro i
    simp [dockerWaitLoop]
    omega
  | succ f ih =>
    intro i
    by_cases hp : probe i
    · simp [dockerWaitLoop, hp]
      exact ⟨i, le_refl i, by omega, hp⟩
    · have := ih (i + 1)
      simp [dockerWaitLoop, hp]
      rw [this]
      constructor
      · rintro ⟨k, hk1, hk2, hk3⟩
        exact ⟨k, by omega, by omega, hk3⟩
      · rintro ⟨k, hk1, hk2, hk3⟩
        have hki : k ≠ i := by
          intro he
          rw [he] at hk3
          exact absurd hk3 (by simpa using hp)
        exact ⟨k, by omega, by omega, hk3⟩

theorem dockerWaitLoop_all_false (probe : Nat → Bool) :
    ∀ fuel i, (∀ k, i ≤ k → k < i + fuel → probe k = false) →
      (dockerWaitLoop probe i fuel).1 = false ∧ (dockerWaitLoop probe i fuel).2.1 = fuel := by
  intro fuel
  induction fuel with
  | zero => intro i _; simp [dockerWaitLoop]
  | succ f ih =>
    intro i hall
    have hp : probe i = false := hall i (le_refl i) (by omega)
    have := ih (i + 1) (fun k hk1 hk2 => hall k (by omega) (by omega))
    simp [dockerWaitLoop, hp]
    exact ⟨this.1, this.2⟩

theorem dockerWaitLoop_first (probe : Nat → Bool) :
    ∀ fuel i k, i ≤ k → k < i + fuel → probe k = true →
      (∀ j, i ≤ j → j < k → probe j = false) →
      (dockerWaitLoop probe i fuel).1 = true ∧ (dockerWaitLoop probe i fuel).2.1 = k - i + 1 := by
  intro fuel
  induction fuel with
  | zero => intro i k h1 h2; omega
  | succ f ih =>
    intro i k h1 h2 hk hmin
    by_cases hik : k = i
    · subst hik
      simp [dockerWaitLoop, hk]
    · have hp : probe i = false := hmin i (le_refl i) (by omega)
      have := ih (i + 1) k (by omega) (by omega) hk (fun j hj1 hj2 => hmin j (by omega) hj2)
      simp [dockerWaitLoop, hp]
      refine ⟨this.1, ?_⟩
      rw [this.2]
      omega

/-! The stdin pipeline: framing composed with parsing and dispatch. -/

/-- Processing of one extracted frame by onStdinData: parse it as a
message (the parse argument stands for the host runtime JSON.parse);
on failure the catch block only logs, producing no response and leaving
the state untouched; on success the message is dispatched and its
response, when any, appended. -/
def handleFrame (parse : List Char → Option MsgIn) (net : NetBehavior)
    (acc : ServerState × List MsgOut × Nat) (frame : List Char) :
    ServerState × List MsgOut × Nat :=
  match parse frame with
  | none => acc
  | some m =>
    let r := processMessage acc.1 m net
    (r.1, acc.2.1 ++ r.2.1.toList, acc.2.2 + r.2.2)

/-- The whole inbound path: decode the chunk stream into frames, then
handle each frame in order. -/
def pipeline (parse : List Char → Option MsgIn) (net : NetBehavior)
    (st : ServerState) (chunks : List (List Char)) : ServerState × List MsgOut × Nat :=
  (decode chunks).emitted.foldl (handleFrame parse net) (st, [], 0)

/-- A well-framed payload that is not valid JSON. -/
def badText : List Char := ("[0,").data

/-- The JSON text of a shutdown request with id seven. -/
def shutdownText : List Char :=
  ("\x7b\"jsonrpc\":\"2.0\",\"id\":7,\"method\":\"shutdown\"\x7d").data

/-- The envelope the shutdown request text denotes. -/
def shutdownMsgIn : MsgIn := ⟨some 7, "shutdown", none⟩

/-- Modelled from the spec: JSON.parse is supplied by the host runtime,
not by this repository.  This stand-in is exact on the two payloads the
concrete theorems feed it: the truncated array text is not valid JSON
and parses to nothing, and the shutdown request text parses to its
envelope. -/
def jsonParseStub (s : List Char) : Option MsgIn :=
  if s = shutdownText then some shutdownMsgIn else none

/-- Claim C2, counterexample to the override: the caller supplies a
timeout of 150000 inside the context and the backend responds after
120000, well within that requested deadline, yet the hard-coded 60000
deadline of makeRequest fires and the caller receives the timed-out
communication error. -/
theorem c2_cex :
    handleAsrGotQuery ⟨true, none⟩ (some ⟨some ⟨some "q", some 150000⟩⟩) (some 1)
        (.respondAfter 120000 200 (some ⟨none, none, some "s"⟩))
      = .ok (⟨true, none⟩, ⟨some 1, .err (-32603)
          "Error communicating with ASR-GoT server: Request timed out"⟩, 1)
    ∧ 120000 ≤ 150000 ∧ ¬ (120000 ≤ 60000) := by
  refine ⟨rfl, by decide, by decide⟩

/-- Claim C2, amended: every forwarded query runs under the fixed
deadline of 60000 milliseconds; the timeout field a caller may place in
the context is never consulted, so the deadline is not overridable; a
deadline overrun rejects with the timed-out error, which is a rejection
distinct from the network error. -/
theorem c2_amended (st : ServerState) (id : Option Int) (q : String)
    (hinit : st.initialized = true) :
    (∀ (ctx : QCtx) (t : Option Nat) (net : NetBehavior),
      handleAsrGotQuery st (some ⟨some { ctx with timeout := t }⟩) id net
        = handleAsrGotQuery st (some ⟨some ctx⟩) id net)
    ∧ requestOptionsTimeout = 60000
    ∧ (∀ d status body, requestOptionsTimeout < d →
        makeRequest ⟨q, true⟩ (.respondAfter d status body) = .error .timedOut)
    ∧ (∀ d status body, d ≤ requestOptionsTimeout →
        makeRequest ⟨q, true⟩ (.respondAfter d status body) ≠ .error .timedOut)
    ∧ (∀ msg, (ReqError.timedOut : ReqError) ≠ ReqError.network msg) := by
  refine ⟨?_, rfl, ?_, ?_, ?_⟩
  · intro ctx t net
    cases ctx
    rfl
  · intro d status body hd
    simp [makeRequest, hd]
  · intro d status body hd
    have hnd : ¬ (requestOptionsTimeout < d) := by omega
    simp only [makeRequest, if_neg hnd]
    split
    · cases body <;> simp
    · simp
  · intro msg
    simp

/-- Claim C2, witness: applying the amended theorem at a concrete state
and query shows the context timeout is ignored and a response slower
than 60000 milliseconds times out. -/
theorem c2_witness :
    handleAsrGotQuery ⟨true, none⟩ (some ⟨some ⟨some "q", some 150000⟩⟩) (some 1) (.failWith "x")
      = handleAsrGotQuery ⟨true, none⟩ (some ⟨some ⟨some "q", none⟩⟩) (some 1) (.failWith "x")
    ∧ makeRequest ⟨"q", true⟩ (.respondAfter 120000 200 none) = .error .timedOut := by
  have h := c2_amended ⟨true, none⟩ (some 1) "q" rfl
  exact ⟨h.1 ⟨some "q", none⟩ (some 150000) (.failWith "x"), h.2.2.1 120000 200 none (by decide)⟩

/-- Claim C3, counterexample: a well-framed payload that is not valid
JSON is decoded into a frame, yet the bridge emits no response at all,
where the claim requires an error response carrying a recovered or
synthetic id. -/
theorem c3_cex :
    (decode [encodeMsg badText]).emitted = [badText]
    ∧ pipeline jsonParseStub (.failWith "backend down") ⟨true, none⟩ [encodeMsg badText]
        = (⟨true, none⟩, [], 0) := by
  have hdec : decode [encodeMsg badText] = ⟨[], none, [badText]⟩ := by
    have h := runLoop_encodeAll [badText] [] (by decide)
    rw [decode_single]
    simpa using h
  refine ⟨by rw [hdec], ?_⟩
  rw [pipeline, hdec]
  simp [handleFrame, show jsonParseStub badText = none from by decide]

/-- Claim C3, amended: a well-framed payload that is not valid JSON is
dropped with no response and no state change, and it does not
desynchronize the stream: a well-formed message encoded after it in the
same chunk is framed, parsed and dispatched exactly as if the corrupt
frame had not been there. -/
theorem c3_amended (parse : List Char → Option MsgIn) (net : NetBehavior) (st : ServerState)
    (bad good : List Char) (m : MsgIn)
    (hbne : bad ≠ []) (hba : ∀ c ∈ bad, c.utf8Size = 1) (hbp : parse bad = none)
    (hgne : good ≠ []) (hga : ∀ c ∈ good, c.utf8Size = 1) (hgp : parse good = some m) :
    (decode [encodeMsg bad ++ encodeMsg good]).emitted = [bad, good]
    ∧ pipeline parse net st [encodeMsg bad ++ encodeMsg good]
        = ((processMessage st m net).1,
           (processMessage st m net).2.1.toList,
           (processMessage st m net).2.2) := by
  have hdec : decode [encodeMsg bad ++ encodeMsg good] = ⟨[], none, [bad, good]⟩ := by
    have h := runLoop_encodeAll [bad, good] [] (by
      intro p hp
      rcases List.mem_cons.mp hp with rfl | hp2
      · exact ⟨hbne, hba⟩
      · rcases List.mem_cons.mp hp2 with rfl | hp3
        · exact ⟨hgne, hga⟩
        · cases hp3)
    rw [decode_single]
    simpa using h
  refine ⟨by rw [hdec], ?_⟩
  rw [pipeline, hdec]
  simp [handleFrame, hbp, hgp]

/-- Claim C3, witness: with the concrete parse stand-in, the corrupt
frame followed by the encoded shutdown request yields exactly the
shutdown response, and the corrupt frame contributes nothing. -/
theorem c3_witness :
    (decode [encodeMsg badText ++ encodeMsg shutdownText]).emitted = [badText, shutdownText]
    ∧ pipeline jsonParseStub (.failWith "backend down") ⟨true, some "s0"⟩
        [encodeMsg badText ++ encodeMsg shutdownText]
        = (⟨false, some "s0"⟩, [⟨some 7, .nullResult⟩], 0) := by
  have h := c3_amended jsonParseStub (.failWith "backend down") ⟨true, some "s0"⟩
    badText shutdownText shutdownMsgIn (by decide) (by decide) (by decide)
    (by decide) (by decide) (by decide)
  refine ⟨h.1, ?_⟩
  rw [h.2]
  decide

/-- The per-stage block of the rendered trace, as the specification
describes the flattened string (stage number, stage name and summary;
the amendment drops the metrics, which the code never reads). -/
def specStageBlock (s : TraceStage) : String :=
  "Stage " ++ jsNumOr s.stage "?" ++ ": " ++ jsStrOr s.name "Unknown Stage"
    ++ "\n" ++ jsStrOr s.summary "No summary available." ++ "\n"

/-- The whole rendered trace per the amended specification wording: the
per-stage blocks, in stage order, joined by line feeds. -/
def specTraceRender (stages : List TraceStage) : String :=
  joinNl (stages.map specStageBlock)

theorem joinNl_mem {l : List String} {x : String} (hx : x ∈ l) :
    x.data <:+: (joinNl l).data := by
  induction l with
  | nil => cases hx
  | cons a t ih =>
    cases t with
    | nil =>
      have : x = a := by simpa using hx
      subst this
      simp [joinNl]
    | cons b ts =>
      rcases List.mem_cons.mp hx with rfl | hxt
      · refine ⟨[], ("\n" ++ joinNl (b :: ts)).data, ?_⟩
        simp [joinNl]
      · obtain ⟨u, v, huv⟩ := ih hxt
        refine ⟨(a ++ "\n").data ++ u, v, ?_⟩
        rw [joinNl]
        simp only [String.data_append, List.append_assoc]
        rw [← List.append_assoc u, huv]

/-- The concrete stage used against claim C4: it carries one metric. -/
def c4Stage : TraceStage :=
  ⟨some "Hypothesis", some 3, some "Generated three hypotheses.", [("impact", 7)]⟩

/-- Claim C4, counterexample: a stage carrying the metric impact with
value seven renders to a string in which neither the metric name nor
its value occurs, where the claim requires the mapping of metric name
to numeric value to be part of the rendered trace. -/
theorem c4_cex :
    extractReasoningTrace ⟨some [c4Stage], none⟩
      = "Stage 3: Hypothesis\nGenerated three hypotheses.\n"
    ∧ ¬ (("impact").data <:+: (extractReasoningTrace ⟨some [c4Stage], none⟩).data)
    ∧ ¬ (("7").data <:+: (extractReasoningTrace ⟨some [c4Stage], none⟩).data) := by
  refine ⟨rfl, by decide, by decide⟩

/-- Claim C4, amended: the reasoning-trace field is the per-stage trace
rendered, in stage order, into a flattened string containing for each
stage its stage number, stage name and human-readable summary; the
metrics mapping is omitted. -/
theorem c4_amended (conf : Option (List Int)) (stages : List TraceStage) :
    extractReasoningTrace ⟨some stages, conf⟩ = specTraceRender stages
    ∧ ∀ s ∈ stages, (specStageBlock s).data <:+: (extractReasoningTrace ⟨some stages, conf⟩).data := by
  refine ⟨rfl, ?_⟩
  intro s hs
  exact joinNl_mem (List.mem_map_of_mem specStageBlock hs)

/-- Claim C4, witness: instantiating the amended theorem at the
concrete stage. -/
theorem c4_witness :
    extractReasoningTrace ⟨some [c4Stage], some [1, 2, 3, 4]⟩ = specTraceRender [c4Stage]
    ∧ (specStageBlock c4Stage).data <:+: (extractReasoningTrace ⟨some [c4Stage], some [1, 2, 3, 4]⟩).data := by
  have h := c4_amended (some [1, 2, 3, 4]) [c4Stage]
  exact ⟨h.1, h.2 c4Stage (by simp)⟩

/-- Claim C5: when the initial health probe reports the server up,
startDockerContainers returns true at once, spawns nothing and polls
nothing; two calls in sequence while the backend stays up spawn nothing
at all. -/
theorem c5_thm (p1 p2 : Nat → Bool) (h1 : p1 0 = true) (h2 : p2 0 = true) :
    startDockerContainers p1 = ⟨true, 0, [], 0⟩
    ∧ startDockerContainers p2 = ⟨true, 0, [], 0⟩
    ∧ (startDockerContainers p1).launches + (startDockerContainers p2).launches = 0 := by
  have e1 : startDockerContainers p1 = ⟨true, 0, [], 0⟩ := by
    simp [startDockerContainers, h1]
  have e2 : startDockerContainers p2 = ⟨true, 0, [], 0⟩ := by
    simp [startDockerContainers, h2]
  exact ⟨e1, e2, by simp [e1, e2]⟩

/-- Claim C5, witness: a backend that always answers its health check. -/
theorem c5_witness :
    startDockerContainers (fun _ => true) = ⟨true, 0, [], 0⟩
    ∧ (startDockerContainers (fun _ => true)).launches
        + (startDockerContainers (fun _ => true)).launches = 0 := by
  have h := c5_thm (fun _ => true) (fun _ => true) rfl rfl
  exact ⟨h.1, h.2.2⟩

/-- Claim C6: when the initial probe fails, the start command is spawned
exactly once, at most ten polls are made, a fixed three-second delay is
awaited before each poll, the call succeeds exactly when some of the ten
polls reports the server up, it fails after exactly ten polls when all
fail, and it stops at the first successful poll. -/
theorem c6_thm (probe : Nat → Bool) (h0 : probe 0 = false) :
    (startDockerContainers probe).launches = 1
    ∧ (startDockerContainers probe).pollProbes ≤ 10
    ∧ (startDockerContainers probe).delays
        = List.replicate (startDockerContainers probe).pollProbes 3000
    ∧ ((startDockerContainers probe).ok = true ↔ ∃ k, 1 ≤ k ∧ k ≤ 10 ∧ probe k = true)
    ∧ ((∀ k, 1 ≤ k → k ≤ 10 → probe k = false) →
        (startDockerContainers probe).ok = false
          ∧ (startDockerContainers probe).pollProbes = 10)
    ∧ (∀ k, 1 ≤ k → k ≤ 10 → probe k = true →
        (∀ j, 1 ≤ j → j < k → probe j = false) →
        (startDockerContainers probe).ok = true
          ∧ (startDockerContainers probe).pollProbes = k) := by
  have hs : startDockerContainers probe
      = ⟨(dockerWaitLoop probe 1 10).1, 1, (dockerWaitLoop probe 1 10).2.2,
         (dockerWaitLoop probe 1 10).2.1⟩ := by
    simp [startDockerContainers, h0]
  rw [hs]
  refine ⟨rfl, dockerWaitLoop_count_le probe 10 1, dockerWaitLoop_delays probe 10 1, ?_, ?_, ?_⟩
  · show (dockerWaitLoop probe 1 10).1 = true ↔ _
    rw [dockerWaitLoop_ok_iff probe 10 1]
    constructor
    · rintro ⟨k, hk1, hk2, hk3⟩
      exact ⟨k, hk1, by omega, hk3⟩
    · rintro ⟨k, hk1, hk2, hk3⟩
      exact ⟨k, hk1, by omega, hk3⟩
  · intro hall
    have h := dockerWaitLoop_all_false probe 10 1 (fun k hk1 hk2 => hall k hk1 (by omega))
    exact ⟨h.1, h.2⟩
  · intro k hk1 hk2 hk hmin
    have h := dockerWaitLoop_first probe 10 1 k hk1 (by omega) hk hmin
    refine ⟨h.1, ?_⟩
    show (dockerWaitLoop probe 1 10).2.1 = k
    rw [h.2]
    omega

/-- Claim C6, witness: a backend that never answers: one spawn, ten
polls, failure. -/
theorem c6_witness :
    (startDockerContainers (fun _ => false)).launches = 1
    ∧ (startDockerContainers (fun _ => false)).ok = false
    ∧ (startDockerContainers (fun _ => false)).pollProbes = 10 := by
  have h := c6_thm (fun _ => false) rfl
  have hfail := h.2.2.2.2.1 (fun _ _ _ => rfl)
  exact ⟨h.1, hfail.1, hfail.2⟩

/-- Claim C7, counterexample: a query with empty text received while the
server is not initialized is answered with the not-initialized error
code, not the invalid-params code the claim requires for every such
request. -/
theorem c7_cex :
    processMessage ⟨false, none⟩ ⟨some 2, "asr_got.query", some ⟨some ⟨some "", none⟩⟩⟩
        (.failWith "x")
      = (⟨false, none⟩, some ⟨some 2, .err (-32002) "Server not initialized"⟩, 0)
    ∧ ((-32002 : Int) ≠ -32602) := by
  refine ⟨rfl, by decide⟩

/-- Claim C7, amended: while the server is initialized, every query
whose query text is missing or empty is answered with the invalid-params
error, the state is unchanged and no backend HTTP call is made. -/
theorem c7_amended (st : ServerState) (ps : QParams) (id : Option Int) (net : NetBehavior)
    (hinit : st.initialized = true)
    (hq : jsTruthyStr (ps.context.getD ⟨none, none⟩).query = false) :
    handleAsrGotQuery st (some ps) id net
      = .ok (st, ⟨id, .err (-32602) "Missing query in context"⟩, 0) := by
  have hni : ¬ (st.initialized = false) := by simp [hinit]
  cases hq1 : (ps.context.getD ⟨none, none⟩).query with
  | none =>
    unfold handleAsrGotQuery
    rw [if_neg hni]
    dsimp only
    rw [hq1]
  | some s =>
    have hse : s.isEmpty = true := by
      rw [hq1] at hq
      simpa [jsTruthyStr] using hq
    unfold handleAsrGotQuery
    rw [if_neg hni]
    dsimp only
    rw [hq1]
    simp [hse]

/-- Claim C7, witness: an initialized server and an empty query text. -/
theorem c7_witness :
    handleAsrGotQuery ⟨true, none⟩ (some ⟨some ⟨some "", none⟩⟩) (some 3) (.failWith "x")
      = .ok (⟨true, none⟩, ⟨some 3, .err (-32602) "Missing query in context"⟩, 0) :=
  c7_amended ⟨true, none⟩ ⟨some ⟨some "", none⟩⟩ (some 3) (.failWith "x") rfl rfl

theorem handleAsrGotQuery_uninit (st : ServerState) (params : Option QParams) (id : Option Int)
    (net : NetBehavior) (hni : st.initialized = false) :
    handleAsrGotQuery st params id net
      = .ok (st, ⟨id, .err (-32002) "Server not initialized"⟩, 0) := by
  unfold handleAsrGotQuery
  rw [if_pos hni]

theorem uninit_preserved (e : Event) (st : ServerState)
    (hni : st.initialized = false) (hne : e.isLaunchSuccess = false) :
    ((stepEv st e).1).initialized = false := by
  cases e with
  | launchDone ok =>
    cases ok with
    | false => simp [stepEv]
    | true => simp [Event.isLaunchSuccess] at hne
  | inbound m net =>
    show ((processMessage st m net).1).initialized = false
    unfold processMessage
    by_cases h1 : m.method = "initialize"
    · simp [h1, hni]
    by_cases h2 : m.method = "shutdown"
    · simp [h1, h2]
    by_cases h3 : m.method = "asr_got.query"
    · simp [h1, h2, h3, handleAsrGotQuery_uninit st m.params m.id net hni, hni]
    by_cases h4 : m.method = "notifications/cancelled"
    · simp [h1, h2, h3, h4, hni]
    · simp [h1, h2, h3, h4, hni]

theorem runEvents_uninit (es : List Event) :
    ∀ st : ServerState, st.initialized = false → (∀ e ∈ es, e.isLaunchSuccess = false) →
      ((runEvents st es).1).initialized = false := by
  induction es with
  | nil => intro st h _; simpa [runEvents] using h
  | cons e t ih =>
    intro st h hall
    have h1 := uninit_preserved e st h (hall e (by simp))
    show ((runEvents (stepEv st e).1 t).1).initialized = false
    exact ih (stepEv st e).1 h1 (fun x hx => hall x (by simp [hx]))

/-- Claim C8, counterexample: after a shutdown, a later handshake whose
background launch completes successfully re-enables the bridge, and a
subsequent query is forwarded and answered with a success, where the
claim requires every query after a shutdown to receive an error. -/
theorem c8_cex :
    runEvents ⟨true, none⟩
      [.inbound ⟨some 1, "shutdown", none⟩ (.failWith "x"),
       .inbound ⟨some 2, "initialize", none⟩ (.failWith "x"),
       .launchDone true,
       .inbound ⟨some 3, "asr_got.query", some ⟨some ⟨some "q", none⟩⟩⟩
         (.respondAfter 5 200 (some ⟨some [⟨some ⟨some "answer"⟩⟩], none, some "sess1"⟩))]
      = (⟨true, some "sess1"⟩,
         [⟨some 1, .nullResult⟩, ⟨some 2, .initCaps⟩,
          ⟨some 3, .success ⟨"answer", "No reasoning trace available.", [0, 0, 0, 0],
            some "sess1"⟩⟩],
         1) := by
  rfl

/-- Claim C8, amended: a shutdown request returns the null-result
success and clears the initialized flag, and every subsequent query with
no intervening successful launch completion (the completion only a later
handshake can trigger) is answered with the not-initialized error and is
not forwarded: zero backend calls are made for it. -/
theorem c8_amended (st : ServerState) (net : NetBehavior) (m : MsgIn)
    (mid : List Event) (q : MsgIn) (qnet : NetBehavior)
    (hm : m.method = "shutdown")
    (hmid : ∀ e ∈ mid, e.isLaunchSuccess = false)
    (hq : q.method = "asr_got.query") :
    processMessage st m net
      = ({ st with initialized := false }, some ⟨m.id, .nullResult⟩, 0)
    ∧ processMessage (runEvents (processMessage st m net).1 mid).1 q qnet
      = ((runEvents (processMessage st m net).1 mid).1,
         some ⟨q.id, .err (-32002) "Server not initialized"⟩, 0)
    ∧ (processMessage (runEvents (processMessage st m net).1 mid).1 q qnet).2.2 = 0 := by
  have hshut : processMessage st m net
      = ({ st with initialized := false }, some ⟨m.id, .nullResult⟩, 0) := by
    unfold processMessage
    rw [if_neg (by rw [hm]; decide), if_pos hm]
  have hstinit : ((processMessage st m net).1).initialized = false := by rw [hshut]
  have hmidinit := runEvents_uninit mid (processMessage st m net).1 hstinit hmid
  have hqresp : ∀ s2 : ServerState, s2.initialized = false →
      processMessage s2 q qnet
        = (s2, some ⟨q.id, .err (-32002) "Server not initialized"⟩, 0) := by
    intro s2 h2
    unfold processMessage
    rw [if_neg (by rw [hq]; decide), if_neg (by rw [hq]; decide), if_pos hq,
      handleAsrGotQuery_uninit _ _ _ _ h2]
  exact ⟨hshut, hqresp _ hmidinit, by rw [hqresp _ hmidinit]⟩

/-- Claim C8, witness: a concrete shutdown, two harmless intervening
events, and a query that is then refused without a backend call. -/
theorem c8_witness :
    processMessage ⟨true, some "s"⟩ ⟨some 1, "shutdown", none⟩ (.failWith "x")
      = (⟨false, some "s"⟩, some ⟨some 1, .nullResult⟩, 0)
    ∧ processMessage
        (runEvents (processMessage ⟨true, some "s"⟩ ⟨some 1, "shutdown", none⟩ (.failWith "x")).1
          [.inbound ⟨some 9, "initialize", none⟩ (.failWith "x"), .launchDone false]).1
        ⟨some 4, "asr_got.query", some ⟨some ⟨some "q", none⟩⟩⟩ (.respondAfter 5 200 none)
      = ((runEvents (processMessage ⟨true, some "s"⟩ ⟨some 1, "shutdown", none⟩ (.failWith "x")).1
          [.inbound ⟨some 9, "initialize", none⟩ (.failWith "x"), .launchDone false]).1,
         some ⟨some 4, .err (-32002) "Server not initialized"⟩, 0) := by
  have h := c8_amended ⟨true, some "s"⟩ (.failWith "x") ⟨some 1, "shutdown", none⟩
    [.inbound ⟨some 9, "initialize", none⟩ (.failWith "x"), .launchDone false]
    ⟨some 4, "asr_got.query", some ⟨some ⟨some "q", none⟩⟩⟩ (.respondAfter 5 200 none)
    rfl (by decide) rfl
  exact ⟨h.1, h.2.1⟩

/-- Claim C9, counterexample: a query with absent params received while
the server is not initialized is answered with the not-initialized
error; no exception is thrown and neither the internal-error code nor
the invalid-params code appears, where the claim describes every such
request. -/
theorem c9_cex :
    processMessage ⟨false, none⟩ ⟨some 5, "asr_got.query", none⟩ (.failWith "x")
      = (⟨false, none⟩, some ⟨some 5, .err (-32002) "Server not initialized"⟩, 0)
    ∧ ((-32002 : Int) ≠ -32603) := by
  refine ⟨rfl, by decide⟩

/-- Claim C9, amended: while the server is initialized, a query whose
params field is absent makes the handler throw on reading
params.context, and the catch-all of processMessage converts the
exception into the internal-error response with code -32603 carrying
message.id or zero, in particular the request id itself whenever one was
supplied. -/
theorem c9_amended (st : ServerState) (m : MsgIn) (net : NetBehavior)
    (hinit : st.initialized = true) (hm : m.method = "asr_got.query") (hp : m.params = none) :
    handleAsrGotQuery st m.params m.id net = .error ctxTypeErrorMsg
    ∧ processMessage st m net
      = (st, some ⟨some (jsIdOr0 m.id), .err (-32603)
          ("Internal error: " ++ ctxTypeErrorMsg)⟩, 0)
    ∧ ∀ n, m.id = some n →
        processMessage st m net
          = (st, some ⟨some n, .err (-32603) ("Internal error: " ++ ctxTypeErrorMsg)⟩, 0) := by
  have hthrow : handleAsrGotQuery st m.params m.id net = .error ctxTypeErrorMsg := by
    unfold handleAsrGotQuery
    rw [if_neg (by simp [hinit])]
    dsimp only
    rw [hp]
  have hmain : processMessage st m net
      = (st, some ⟨some (jsIdOr0 m.id), .err (-32603)
          ("Internal error: " ++ ctxTypeErrorMsg)⟩, 0) := by
    unfold processMessage
    rw [if_neg (by rw [hm]; decide), if_neg (by rw [hm]; decide), if_pos hm, hthrow]
  exact ⟨hthrow, hmain, fun n hn => by rw [hmain, hn]; rfl⟩

/-- Claim C9, witness: an initialized server and a query with id six and
no params. -/
theorem c9_witness :
    processMessage ⟨true, none⟩ ⟨some 6, "asr_got.query", none⟩ (.failWith "x")
      = (⟨true, none⟩, some ⟨some 6, .err (-32603)
          ("Internal error: " ++ ctxTypeErrorMsg)⟩, 0) := by
  have h := c9_amended ⟨true, none⟩ ⟨some 6, "asr_got.query", none⟩ (.failWith "x") rfl rfl rfl
  exact h.2.2 6 rfl

theorem handleAsrGotQuery_session (st : ServerState) (ps : QParams) (id : Option Int)
    (net : NetBehavior) (q : String)
    (hinit : st.initialized = true)
    (hq : (ps.context.getD ⟨none, none⟩).query = some q) (hne : q.isEmpty = false) :
    ∀ st1 out k, handleAsrGotQuery st (some ps) id net = .ok (st1, out, k) →
      st1.sessionId
        = match makeRequest ⟨q, true⟩ net with
          | .error _ => st.sessionId
          | .ok resp => if jsTruthyStr resp.session_id then resp.session_id else st.sessionId := by
  intro st1 out k hrun
  unfold handleAsrGotQuery at hrun
  rw [if_neg (by simp [hinit])] at hrun
  dsimp only at hrun
  rw [hq] at hrun
  dsimp only at hrun
  rw [if_neg (by simp [hne])] at hrun
  cases hmr : makeRequest ⟨q, true⟩ net with
  | error e =>
    rw [hmr] at hrun
    dsimp only at hrun
    simp only [Except.ok.injEq, Prod.mk.injEq] at hrun
    rw [← hrun.1]
  | ok resp =>
    rw [hmr] at hrun
    dsimp only at hrun
    simp only [Except.ok.injEq, Prod.mk.injEq] at hrun
    rw [← hrun.1]

/-- Claim C10: for every forwarded query, a failing backend call of any
kind (network failure, deadline overrun, non-2xx status, or an
unparsable 2xx body) leaves the shared session identifier unchanged; a
successful call leaves it unchanged unless the response carries a truthy
session_id, in which case the identifier becomes exactly that value. -/
theorem c10_thm (st : ServerState) (ps : QParams) (id : Option Int) (net : NetBehavior)
    (q : String) (st1 : ServerState) (out : MsgOut) (k : Nat)
    (hinit : st.initialized = true)
    (hq : (ps.context.getD ⟨none, none⟩).query = some q) (hne : q.isEmpty = false)
    (hrun : handleAsrGotQuery st (some ps) id net = .ok (st1, out, k)) :
    ((∃ e, makeRequest ⟨q, true⟩ net = .error e) → st1.sessionId = st.sessionId)
    ∧ (∀ resp, makeRequest ⟨q, true⟩ net = .ok resp → jsTruthyStr resp.session_id = false →
        st1.sessionId = st.sessionId)
    ∧ (∀ resp, makeRequest ⟨q, true⟩ net = .ok resp → jsTruthyStr resp.session_id = true →
        st1.sessionId = resp.session_id) := by
  have hsess := handleAsrGotQuery_session st ps id net q hinit hq hne st1 out k hrun
  refine ⟨?_, ?_, ?_⟩
  · rintro ⟨e, he⟩
    rw [hsess, he]
  · intro resp hresp hfalse
    rw [hsess, hresp]
    simp [hfalse]
  · intro resp hresp htrue
    rw [hsess, hresp]
    simp [htrue]

/-- Claim C10, witness: a network failure leaves the concrete session
identifier untouched. -/
theorem c10_witness :
    handleAsrGotQuery ⟨true, some "keep"⟩ (some ⟨some ⟨some "q", none⟩⟩) (some 1) (.failWith "boom")
      = .ok (⟨true, some "keep"⟩, ⟨some 1, .err (-32603)
          "Error communicating with ASR-GoT server: boom"⟩, 1)
    ∧ (⟨true, some "keep"⟩ : ServerState).sessionId = some "keep" := by
  have hrun : handleAsrGotQuery ⟨true, some "keep"⟩ (some ⟨some ⟨some "q", none⟩⟩) (some 1)
      (.failWith "boom")
      = .ok (⟨true, some "keep"⟩, ⟨some 1, .err (-32603)
          "Error communicating with ASR-GoT server: boom"⟩, 1) := rfl
  have h := c10_thm ⟨true, some "keep"⟩ ⟨some ⟨some "q", none⟩⟩ (some 1) (.failWith "boom")
    "q" ⟨true, some "keep"⟩
    ⟨some 1, .err (-32603) "Error communicating with ASR-GoT server: boom"⟩ 1
    rfl rfl rfl hrun
  exact ⟨hrun, h.1 ⟨.network "boom", rfl⟩⟩

end GoT
